import Mathlib

/-!
Verification of the request-dispatch and name-resolution layer of the
Google Drive MCP server (src/index.ts).

The embedding models the handlers as pure functions over an explicit
remote-drive state (a list of files).  Each handler returns its result
together with the ordered list of remote Drive API calls it performs, so
that "performs no write call" / "performs exactly one lookup" style
properties can be stated.  JavaScript-specific behaviour that the code
relies on is modelled explicitly where it matters:

* `String.prototype.replace` with a *string* pattern replaces only the
  first occurrence (`removeFirst`);
* `new RegExp(target, "g")` removal is modelled for targets without
  pattern metacharacters as a single left-to-right pass removing
  leftmost non-overlapping occurrences (`removeMatches`);
* a missing argument key (`undefined`) is coerced to the string
  `"undefined"` where the code feeds it to `RegExp.test`, string
  interpolation, `includes` or string concatenation (`jsStr`), and
  raises a `TypeError` where the code calls `Buffer.from` /
  `String.prototype.replace` on it.
-/

/-- A remote Drive file as consumed by the server: provider id, display
name, mime type, and (for the media endpoints) its current textual
content. -/
structure DriveFile where
  id : String
  name : String
  mimeType : String
  content : String
  deriving DecidableEq

/-- One remote Drive API call, as issued by the handlers.  `createFile`
carries the requested name (`none` when the argument was undefined) and
the media mime type and body. -/
inductive RemoteCall where
  | listFiles (q : String) (pageSize : Nat)
  | getMetadata (fileId : String)
  | getMedia (fileId : String)
  | exportFile (fileId : String) (mimeType : String)
  | createFile (name : Option String) (mimeType : String) (body : String)
  | update (fileId : String) (mediaMimeType : String) (body : String)
  | delete (fileId : String)
  deriving DecidableEq

/-- The error taxonomy of the handlers: name resolution failures
(`notFound`, `ambiguous`), the delete-from-content guard
(`textNotFound`), an unrecognized tool name (`toolNotFound`), a
JavaScript `TypeError` raised on an undefined argument (`typeError`)
and an opaque remote failure (`remoteFailure`). -/
inductive ToolError where
  | notFound (name : String)
  | ambiguous (listing : String)
  | textNotFound (target : String)
  | toolNotFound
  | typeError
  | remoteFailure
  deriving DecidableEq

/-- JS regex character class `[\w-]` (no unicode flag): ASCII letters,
digits, underscore, and the hyphen. -/
def isWordOrHyphen (c : Char) : Bool :=
  c.isAlphanum || c == '_' || c == '-'

/-- The fast-path test of `resolveFileId` (line 33):
`/^[\w-]{20,}$/.test(nameOrId)`. -/
def isOpaqueId (s : String) : Bool :=
  decide (20 ≤ s.length) && s.data.all isWordOrHyphen

/-- The exact-name lookup query built by `resolveFileId` (line 38):
`name = '${nameOrId}'`, with no escaping of the interpolated name. -/
def nameQuery (nameOrId : String) : String :=
  "name = \x27" ++ nameOrId ++ "\x27"

/-- One line of the ambiguity payload (line 49):
`• ${file.name} (ID: ${file.id})`. -/
def candidateLine (f : DriveFile) : String :=
  "• " ++ f.name ++ " (ID: " ++ f.id ++ ")"

/-- The candidate enumeration of the ambiguity payload (line 49):
one `candidateLine` per returned file, joined by newlines. -/
def ambiguousListing (files : List DriveFile) : String :=
  String.intercalate "\n" (files.map candidateLine)

/-- The full ambiguity error message (line 50). -/
def ambiguousMessage (files : List DriveFile) : String :=
  "여러 개의 파일이 검색되었습니다. 정확한 파일명을 입력하거나 ID를 직접 지정해 주세요.\n\n" ++
    ambiguousListing files

/-- Embedding of `resolveFileId` (lines 32–54).  The remote
`drive.files.list({q: name = '...', pageSize: 5})` call is modelled as
filtering the drive state by exact name and returning at most 5 files.
The second component is the list of remote calls performed. -/
def resolveFileId (drive : List DriveFile) (nameOrId : String) :
    Except ToolError String × List RemoteCall :=
  if isOpaqueId nameOrId then
    (Except.ok nameOrId, [])
  else
    match (drive.filter (fun f => f.name == nameOrId)).take 5 with
    | [] =>
        (Except.error (ToolError.notFound nameOrId),
         [RemoteCall.listFiles (nameQuery nameOrId) 5])
    | [f] =>
        (Except.ok f.id, [RemoteCall.listFiles (nameQuery nameOrId) 5])
    | f1 :: f2 :: rest =>
        (Except.error (ToolError.ambiguous (ambiguousMessage (f1 :: f2 :: rest))),
         [RemoteCall.listFiles (nameQuery nameOrId) 5])

/-- Models JS `String.prototype.startsWith`. -/
def strStartsWith (s p : String) : Bool :=
  p.data.isPrefixOf s.data

/-- The export-target table of the read handler (lines 91–106). -/
def exportMimeFor (mimeType : String) : String :=
  if mimeType == "application/vnd.google-apps.document" then "text/markdown"
  else if mimeType == "application/vnd.google-apps.spreadsheet" then "text/csv"
  else if mimeType == "application/vnd.google-apps.presentation" then "text/plain"
  else if mimeType == "application/vnd.google-apps.drawing" then "image/png"
  else "text/plain"

/-- The three read strategies of the read handler. -/
inductive ReadPlan where
  | exportAs (targetMime : String)
  | rawText
  | rawBinary
  deriving DecidableEq

/-- The content-type strategy of the read handler (lines 89–121):
provider-native types are exported per `exportMimeFor`; `text/*` and
exactly `application/json` are decoded as UTF-8 text; everything else
is fetched as raw binary. -/
def planRead (mimeType : String) : ReadPlan :=
  if strStartsWith mimeType "application/vnd.google-apps" then
    ReadPlan.exportAs (exportMimeFor mimeType)
  else if strStartsWith mimeType "text/" || mimeType == "application/json" then
    ReadPlan.rawText
  else
    ReadPlan.rawBinary

/-- Remove the first occurrence of `pat` from a character list.  Models
JS `String.prototype.replace` with a *string* pattern and an empty
replacement, which replaces only the first occurrence. -/
def removeFirst (pat : List Char) : List Char → List Char
  | [] => []
  | c :: cs =>
    if pat.isPrefixOf (c :: cs) then (c :: cs).drop pat.length
    else c :: removeFirst pat cs

/-- The fixed resource URI scheme prefix (lines 75 and 85). -/
def schemePrefix : String := "gdrive:///"

/-- URI construction on listing (line 75): `gdrive:///${file.id}`. -/
def constructUri (fileId : String) : String :=
  schemePrefix ++ fileId

/-- URI parsing on read (line 85):
`request.params.uri.replace("gdrive:///", "")`. -/
def parseUri (uri : String) : String :=
  String.mk (removeFirst schemePrefix.data uri.data)

/-- Look up a file by provider id in the drive state. -/
def driveFind (drive : List DriveFile) (fileId : String) : Option DriveFile :=
  drive.find? (fun f => f.id == fileId)

/-- The content served by the media download endpoint
(`drive.files.get` with `alt: "media"`), decoded as UTF-8. -/
def getFileContent (drive : List DriveFile) (fileId : String) : Option String :=
  (driveFind drive fileId).map (fun f => f.content)

/-- The content payload of a read-resource response: exactly one of
`text` or `blob` is populated.  The provider's server-side export
conversion and the base64 transport encoding are external to this
repository, so the body field carries the file's content verbatim. -/
inductive ReadOutcome where
  | textContent (uri mimeType body : String)
  | blobContent (uri mimeType body : String)
  deriving DecidableEq

/-- Embedding of the `ReadResourceRequestSchema` handler (lines 84–123):
the uri is stripped of the scheme prefix, passed through
`resolveFileId`, the file's mime type is fetched, and the read plan is
executed. -/
def readResource (drive : List DriveFile) (uri : String) :
    Except ToolError ReadOutcome × List RemoteCall :=
  match (resolveFileId drive (parseUri uri)).1 with
  | Except.error e => (Except.error e, (resolveFileId drive (parseUri uri)).2)
  | Except.ok fileId =>
    match driveFind drive fileId with
    | none =>
        (Except.error ToolError.remoteFailure,
         (resolveFileId drive (parseUri uri)).2 ++ [RemoteCall.getMetadata fileId])
    | some file =>
      match planRead file.mimeType with
      | ReadPlan.exportAs target =>
          (Except.ok (ReadOutcome.textContent uri target file.content),
           (resolveFileId drive (parseUri uri)).2 ++
             [RemoteCall.getMetadata fileId, RemoteCall.exportFile fileId target])
      | ReadPlan.rawText =>
          (Except.ok (ReadOutcome.textContent uri file.mimeType file.content),
           (resolveFileId drive (parseUri uri)).2 ++
             [RemoteCall.getMetadata fileId, RemoteCall.getMedia fileId])
      | ReadPlan.rawBinary =>
          (Except.ok (ReadOutcome.blobContent uri file.mimeType file.content),
           (resolveFileId drive (parseUri uri)).2 ++
             [RemoteCall.getMetadata fileId, RemoteCall.getMedia fileId])

/-- The argument bag of a tool invocation.  A key missing from the bag
corresponds to the JS value `undefined`. -/
abbrev Args := List (String × String)

/-- `args.key` access on the argument bag. -/
def argLookup (args : Args) (key : String) : Option String :=
  (args.find? (fun kv => kv.1 == key)).map (fun kv => kv.2)

/-- JS string coercion of a possibly-undefined argument:
`String(undefined) = "undefined"`.  This is what `RegExp.test`,
template-literal interpolation, `includes`, `new RegExp` and string
concatenation do with an undefined value. -/
def jsStr (v : Option String) : String :=
  match v with
  | some s => s
  | none => "undefined"

/-- The backslash character. -/
def backslashChar : Char := '\\'

/-- The single-quote character. -/
def squoteChar : Char := Char.ofNat 39

/-- Expand every character of a list through `f` (character-wise global
replacement). -/
def expandChars (f : Char → List Char) : List Char → List Char
  | [] => []
  | c :: cs => f c ++ expandChars f cs

/-- Models JS `String.prototype.replace` with a global
single-character regex pattern: every occurrence of `c` is replaced by
`r`. -/
def replaceCharAll (s : String) (c : Char) (r : List Char) : String :=
  String.mk (expandChars (fun x => if x == c then r else [x]) s.data)

/-- The search tool's escaping (line 218): first double every
backslash, then backslash-escape every single quote. -/
def escapedQuery (q : String) : String :=
  replaceCharAll
    (replaceCharAll q backslashChar [backslashChar, backslashChar])
    squoteChar [backslashChar, squoteChar]

/-- The full-text query built by the search tool (line 220):
`fullText contains '${escapedQuery}'`. -/
def searchQuery (q : String) : String :=
  "fullText contains \x27" ++ escapedQuery q ++ "\x27"

/-- Embedding of the `search` tool (lines 216–228).  The response text
depends on the provider's full-text matching, which is remote
behaviour; only the emitted call matters here. -/
def searchTool (args : Args) : Except ToolError String × List RemoteCall :=
  match argLookup args "query" with
  | none => (Except.error ToolError.typeError, [])
  | some query =>
      (Except.ok "search results", [RemoteCall.listFiles (searchQuery query) 10])

/-- `guessMimeType` (lines 57–59): `lookup(filename) ||
"application/octet-stream"`, with the external mime-types database
passed in as a capability. -/
def guessMimeType (mimeLookup : String → Option String) (filename : String) : String :=
  (mimeLookup filename).getD "application/octet-stream"

/-- Embedding of the `upload_file_with_content` tool (lines 229–239).
A missing `content` raises a `TypeError` in `Buffer.from` before the
create call; a missing `name` makes `lookup` return false (mime falls
back to octet-stream) and the created file carries no name. -/
def uploadFileWithContentTool (mimeLookup : String → Option String) (args : Args) :
    Except ToolError String × List RemoteCall :=
  match argLookup args "content" with
  | none => (Except.error ToolError.typeError, [])
  | some content =>
      let mime :=
        match argLookup args "name" with
        | none => "application/octet-stream"
        | some n => guessMimeType mimeLookup n
      (Except.ok "파일 업로드 완료",
       [RemoteCall.createFile (argLookup args "name") mime content])

/-- Embedding of the `update_file_content` tool (lines 240–254): the
id argument is resolved, then the whole body is rewritten with media
mime type `text/plain`.  A missing `newContent` raises a `TypeError`
in `Buffer.from` after resolution but before the update call. -/
def updateFileContentTool (drive : List DriveFile) (args : Args) :
    Except ToolError String × List RemoteCall :=
  match (resolveFileId drive (jsStr (argLookup args "fileId"))).1 with
  | Except.error e =>
      (Except.error e, (resolveFileId drive (jsStr (argLookup args "fileId"))).2)
  | Except.ok fileId =>
    match argLookup args "newContent" with
    | none =>
        (Except.error ToolError.typeError,
         (resolveFileId drive (jsStr (argLookup args "fileId"))).2)
    | some newContent =>
        (Except.ok ("파일 업데이트 완료: " ++ fileId),
         (resolveFileId drive (jsStr (argLookup args "fileId"))).2 ++
           [RemoteCall.update fileId "text/plain" newContent])

/-- Embedding of the `delete_file` tool (lines 255–260). -/
def deleteFileTool (drive : List DriveFile) (args : Args) :
    Except ToolError String × List RemoteCall :=
  match (resolveFileId drive (jsStr (argLookup args "fileId"))).1 with
  | Except.error e =>
      (Except.error e, (resolveFileId drive (jsStr (argLookup args "fileId"))).2)
  | Except.ok fileId =>
      (Except.ok ("파일 삭제 완료: " ++ fileId),
       (resolveFileId drive (jsStr (argLookup args "fileId"))).2 ++
         [RemoteCall.delete fileId])

/-- Embedding of the `read_file_content` tool (lines 261–265). -/
def readFileContentTool (drive : List DriveFile) (args : Args) :
    Except ToolError String × List RemoteCall :=
  match (resolveFileId drive (jsStr (argLookup args "filename"))).1 with
  | Except.error e =>
      (Except.error e, (resolveFileId drive (jsStr (argLookup args "filename"))).2)
  | Except.ok fileId =>
    match getFileContent drive fileId with
    | none =>
        (Except.error ToolError.remoteFailure,
         (resolveFileId drive (jsStr (argLookup args "filename"))).2 ++
           [RemoteCall.getMedia fileId])
    | some content =>
        (Except.ok content,
         (resolveFileId drive (jsStr (argLookup args "filename"))).2 ++
           [RemoteCall.getMedia fileId])

/-- Embedding of the `append_file_content` tool (lines 266–275): fetch
the current text, concatenate a newline and the appended text, and
rewrite the whole body with media mime type `text/plain`. -/
def appendFileContentTool (drive : List DriveFile) (args : Args) :
    Except ToolError String × List RemoteCall :=
  match (resolveFileId drive (jsStr (argLookup args "filename"))).1 with
  | Except.error e =>
      (Except.error e, (resolveFileId drive (jsStr (argLookup args "filename"))).2)
  | Except.ok fileId =>
    match getFileContent drive fileId with
    | none =>
        (Except.error ToolError.remoteFailure,
         (resolveFileId drive (jsStr (argLookup args "filename"))).2 ++
           [RemoteCall.getMedia fileId])
    | some current =>
        (Except.ok ("파일에 텍스트 추가 완료: " ++ fileId),
         (resolveFileId drive (jsStr (argLookup args "filename"))).2 ++
           [RemoteCall.getMedia fileId,
            RemoteCall.update fileId "text/plain"
              (current ++ "\n" ++ jsStr (argLookup args "appendText"))])

/-- Single left-to-right pass removing leftmost non-overlapping
occurrences of the nonempty pattern `p :: ps`, fuel-indexed for
structural recursion (the fuel is instantiated with the list length,
which bounds the number of steps).  This is the effect of
`content.replace(new RegExp(target, "g"), "")` for a target without
pattern metacharacters. -/
def removeMatches (p : Char) (ps : List Char) : Nat → List Char → List Char
  | _, [] => []
  | 0, l => l
  | fuel + 1, c :: cs =>
    if c == p && ps.isPrefixOf cs then removeMatches p ps fuel (cs.drop ps.length)
    else c :: removeMatches p ps fuel cs

/-- Number of leftmost non-overlapping occurrences of `p :: ps` found
by the same single pass as `removeMatches`. -/
def countMatches (p : Char) (ps : List Char) : Nat → List Char → Nat
  | _, [] => 0
  | 0, _ => 0
  | fuel + 1, c :: cs =>
    if c == p && ps.isPrefixOf cs then countMatches p ps fuel (cs.drop ps.length) + 1
    else countMatches p ps fuel cs

/-- Number of leftmost non-overlapping occurrences of `target` in `s`
(0 for the empty target, whose removal is a no-op). -/
def countOccurrences (s target : String) : Nat :=
  match target.data with
  | [] => 0
  | p :: ps => countMatches p ps s.data.length s.data

/-- Models `content.replace(new RegExp(target, "g"), "")` for a target
without pattern metacharacters: a single pass removing leftmost
non-overlapping occurrences; the empty pattern removes nothing. -/
def removeAllOccurrences (s target : String) : String :=
  match target.data with
  | [] => s
  | p :: ps => String.mk (removeMatches p ps s.data.length s.data)

/-- Substring containment on character lists; models JS
`String.prototype.includes` (true for the empty pattern). -/
def containsSub (pat : List Char) : List Char → Bool
  | [] => pat.isEmpty
  | c :: cs => pat.isPrefixOf (c :: cs) || containsSub pat cs

/-- `s.includes(t)`: `t` occurs in `s` as a literal substring. -/
def strContains (s t : String) : Bool :=
  containsSub t.data s.data

/-- Characters with special meaning in a JS regex pattern. -/
def regexMetaChars : List Char :=
  ['\\', '^', '$', '.', '|', '?', '*', '+', '(', ')', '[', ']', '\x7b', '\x7d']

/-- `s` contains no pattern metacharacters, so `new RegExp(s)` matches
`s` literally. -/
def noMeta (s : String) : Bool :=
  s.data.all (fun c => !(regexMetaChars.contains c))

/-- Embedding of the `delete_from_file_content` tool (lines 276–288):
fetch the current text; fail `textNotFound` (without any write call)
if the target is absent as a literal substring; otherwise rewrite the
whole body, with the target removed globally, under media mime type
`text/plain`. -/
def deleteFromFileContentTool (drive : List DriveFile) (args : Args) :
    Except ToolError String × List RemoteCall :=
  match (resolveFileId drive (jsStr (argLookup args "filename"))).1 with
  | Except.error e =>
      (Except.error e, (resolveFileId drive (jsStr (argLookup args "filename"))).2)
  | Except.ok fileId =>
    match getFileContent drive fileId with
    | none =>
        (Except.error ToolError.remoteFailure,
         (resolveFileId drive (jsStr (argLookup args "filename"))).2 ++
           [RemoteCall.getMedia fileId])
    | some current =>
      if strContains current (jsStr (argLookup args "targetText")) then
        (Except.ok ("파일에서 텍스트 삭제 완료: " ++ fileId),
         (resolveFileId drive (jsStr (argLookup args "filename"))).2 ++
           [RemoteCall.getMedia fileId,
            RemoteCall.update fileId "text/plain"
              (removeAllOccurrences current (jsStr (argLookup args "targetText")))])
      else
        (Except.error (ToolError.textNotFound (jsStr (argLookup args "targetText"))),
         (resolveFileId drive (jsStr (argLookup args "filename"))).2 ++
           [RemoteCall.getMedia fileId])

/-- Embedding of the `CallToolRequestSchema` handler (lines 213–292):
dispatch on the tool name over the seven registered tools; an
unrecognized name fails `toolNotFound`. -/
def callTool (mimeLookup : String → Option String) (drive : List DriveFile)
    (name : String) (args : Args) : Except ToolError String × List RemoteCall :=
  if name == "search" then searchTool args
  else if name == "upload_file_with_content" then uploadFileWithContentTool mimeLookup args
  else if name == "update_file_content" then updateFileContentTool drive args
  else if name == "delete_file" then deleteFileTool drive args
  else if name == "read_file_content" then readFileContentTool drive args
  else if name == "append_file_content" then appendFileContentTool drive args
  else if name == "delete_from_file_content" then deleteFromFileContentTool drive args
  else (Except.error ToolError.toolNotFound, [])

/-- Whether a remote call mutates the remote drive state. -/
def isWriteCall : RemoteCall → Bool
  | RemoteCall.createFile _ _ _ => true
  | RemoteCall.update _ _ _ => true
  | RemoteCall.delete _ => true
  | _ => false

/-- Effect of one remote call on the drive state.  Reads are no-ops;
`update` rewrites the body of the addressed file; `delete` removes it;
`createFile` appends a file (the provider assigns the real id, the
empty placeholder only marks that the state grows). -/
def applyCall (drive : List DriveFile) : RemoteCall → List DriveFile
  | RemoteCall.update fileId _ body =>
      drive.map (fun f => if f.id == fileId then { f with content := body } else f)
  | RemoteCall.delete fileId => drive.filter (fun f => !(f.id == fileId))
  | RemoteCall.createFile name mime body =>
      drive ++ [{ id := "", name := name.getD "", mimeType := mime, content := body }]
  | _ => drive

/-- Effect of a call trace on the drive state, applied in order. -/
def applyCalls (calls : List RemoteCall) (drive : List DriveFile) : List DriveFile :=
  calls.foldl applyCall drive

/-- Example drive states used by the concrete witnesses below. -/
def exDriveC5 : List DriveFile :=
  [{ id := "f5", name := "t.txt", mimeType := "text/plain", content := "hello" }]

def exDriveC6 : List DriveFile :=
  [{ id := "f6", name := "c.txt", mimeType := "text/plain", content := "aabb" }]

def exDriveC7 : List DriveFile :=
  [{ id := "f7", name := "a.txt", mimeType := "text/plain", content := "A" }]

/-! ## Helper lemmas -/

theorem isPrefixOf_length_le (l1 l2 : List Char) (h : l1.isPrefixOf l2 = true) :
    l1.length ≤ l2.length := by
  rw [List.isPrefixOf_iff_prefix] at h
  exact h.length_le

theorem isPrefixOf_append_self (l r : List Char) : l.isPrefixOf (l ++ r) = true := by
  induction l with
  | nil => simp [List.isPrefixOf]
  | cons a as ih => simp [List.isPrefixOf, ih]

theorem isPrefixOf_head_eq (a : Char) (as l : List Char)
    (h : (a :: as).isPrefixOf l = true) : ∃ cs, l = a :: cs := by
  cases l with
  | nil => simp [List.isPrefixOf] at h
  | cons b bs =>
    simp [List.isPrefixOf] at h
    exact ⟨bs, by rw [h.1]⟩

theorem removeFirst_append (pat rest : List Char) (hne : pat ≠ []) :
    removeFirst pat (pat ++ rest) = rest := by
  cases pat with
  | nil => exact absurd rfl hne
  | cons a as =>
    have hp : (a :: as).isPrefixOf ((a :: as) ++ rest) = true :=
      isPrefixOf_append_self _ _
    show removeFirst (a :: as) (a :: (as ++ rest)) = rest
    rw [removeFirst]
    simp only [List.cons_append] at hp
    rw [if_pos hp]
    exact List.drop_left (a :: as) rest

theorem data_append (s t : String) : (s ++ t).data = s.data ++ t.data := rfl

theorem resolveFileId_snd (drive : List DriveFile) (s : String) :
    (resolveFileId drive s).2 = [] ∨
      (resolveFileId drive s).2 = [RemoteCall.listFiles (nameQuery s) 5] := by
  unfold resolveFileId
  cases h : isOpaqueId s with
  | true => simp
  | false =>
    simp only [Bool.false_eq_true, if_false]
    right
    split <;> rfl

theorem resolveFileId_snd_not_id (drive : List DriveFile) (s : String)
    (h : isOpaqueId s = false) :
    (resolveFileId drive s).2 = [RemoteCall.listFiles (nameQuery s) 5] := by
  unfold resolveFileId
  rw [h]
  simp only [Bool.false_eq_true, if_false]
  split <;> rfl

/-! ## C1: the identifier resolver contract -/

/-- C1: for every input string, `resolveFileId` returns the input
unchanged with zero remote calls when the input matches the opaque-ID
shape (20 or more word/hyphen characters); for every other input it
performs exactly one exact-name lookup (`name = '...'`, page size 5)
and then returns the single match's id, fails `notFound` on zero
matches, and fails `ambiguous` on two or more matches with a payload
enumerating every candidate's name and id. -/
theorem C1_resolver_contract (drive : List DriveFile) (input : String) :
    (isOpaqueId input = true → resolveFileId drive input = (Except.ok input, [])) ∧
    (isOpaqueId input = false →
      (resolveFileId drive input).2 = [RemoteCall.listFiles (nameQuery input) 5] ∧
      ((drive.filter (fun f => f.name == input)).take 5 = [] →
        (resolveFileId drive input).1 = Except.error (ToolError.notFound input)) ∧
      (∀ f, (drive.filter (fun f => f.name == input)).take 5 = [f] →
        (resolveFileId drive input).1 = Except.ok f.id) ∧
      (∀ f1 f2 rest, (drive.filter (fun f => f.name == input)).take 5 = f1 :: f2 :: rest →
        (resolveFileId drive input).1 =
          Except.error (ToolError.ambiguous (ambiguousMessage (f1 :: f2 :: rest))))) := by
  constructor
  · intro h
    simp [resolveFileId, h]
  · intro h
    refine ⟨resolveFileId_snd_not_id drive input h, ?_, ?_, ?_⟩
    · intro htake
      unfold resolveFileId
      rw [h]
      simp only [Bool.false_eq_true, if_false]
      rw [htake]
    · intro f htake
      unfold resolveFileId
      rw [h]
      simp only [Bool.false_eq_true, if_false]
      rw [htake]
    · intro f1 f2 rest htake
      unfold resolveFileId
      rw [h]
      simp only [Bool.false_eq_true, if_false]
      rw [htake]

theorem C1_resolver_contract_witness :
    isOpaqueId "aaaaaaaaaaaaaaaaaaaa" = true ∧
      resolveFileId [] "aaaaaaaaaaaaaaaaaaaa" = (Except.ok "aaaaaaaaaaaaaaaaaaaa", []) :=
  ⟨by decide, (C1_resolver_contract [] "aaaaaaaaaaaaaaaaaaaa").1 (by decide)⟩

/-! ## C2: the read-plan selection is a pure total function -/

theorem text_prefix_excludes_gapps (m : String)
    (h : strStartsWith m "text/" = true) :
    strStartsWith m "application/vnd.google-apps" = false := by
  unfold strStartsWith at h ⊢
  rw [show ("text/" : String).data = 't' :: "ext/".data from rfl] at h
  obtain ⟨cs, hm⟩ := isPrefixOf_head_eq _ _ _ h
  rw [hm,
    show ("application/vnd.google-apps" : String).data =
      'a' :: "pplication/vnd.google-apps".data from rfl]
  rfl

/-- C2: the read-plan selection is a pure total function of the mime
string: every mime in the provider-native namespace maps to an export
per the fixed table (document → markdown, spreadsheet → CSV,
presentation → plain text, drawing → PNG, any other namespace type →
plain text); every mime starting with `text/` and exactly
`application/json` map to raw UTF-8 text; every other mime maps to raw
base64 binary; and re-invoking on the same input yields the same
plan. -/
theorem C2_planRead_total (m : String) :
    (strStartsWith m "application/vnd.google-apps" = true →
      planRead m = ReadPlan.exportAs (exportMimeFor m)) ∧
    exportMimeFor "application/vnd.google-apps.document" = "text/markdown" ∧
    exportMimeFor "application/vnd.google-apps.spreadsheet" = "text/csv" ∧
    exportMimeFor "application/vnd.google-apps.presentation" = "text/plain" ∧
    exportMimeFor "application/vnd.google-apps.drawing" = "image/png" ∧
    (strStartsWith m "application/vnd.google-apps" = true →
      m ≠ "application/vnd.google-apps.document" →
      m ≠ "application/vnd.google-apps.spreadsheet" →
      m ≠ "application/vnd.google-apps.presentation" →
      m ≠ "application/vnd.google-apps.drawing" →
      exportMimeFor m = "text/plain") ∧
    (strStartsWith m "text/" = true → planRead m = ReadPlan.rawText) ∧
    (m = "application/json" → planRead m = ReadPlan.rawText) ∧
    (strStartsWith m "application/vnd.google-apps" = false →
      strStartsWith m "text/" = false → m ≠ "application/json" →
      planRead m = ReadPlan.rawBinary) ∧
    planRead m = planRead m := by
  refine ⟨?_, rfl, rfl, rfl, rfl, ?_, ?_, ?_, ?_, rfl⟩
  · intro h
    simp [planRead, h]
  · intro h h1 h2 h3 h4
    simp [exportMimeFor, h1, h2, h3, h4]
  · intro h
    have hg := text_prefix_excludes_gapps m h
    simp [planRead, h, hg]
  · intro h
    subst h
    rfl
  · intro h1 h2 h3
    simp [planRead, h1, h2, h3]

theorem C2_planRead_total_witness :
    strStartsWith "text/html" "text/" = true ∧
      planRead "text/html" = ReadPlan.rawText :=
  ⟨by decide, (C2_planRead_total "text/html").2.2.2.2.2.2.1 (by decide)⟩

/-! ## C4: the resource URI round-trip -/

/-- C4: for every file id not containing the scheme separator,
constructing the resource URI (`gdrive:///` followed by the raw id)
and then parsing that URI recovers exactly the original id. -/
theorem C4_uri_roundtrip (fileId : String)
    (h : containsSub (":///" : String).data fileId.data = false) :
    parseUri (constructUri fileId) = fileId := by
  unfold parseUri constructUri
  rw [data_append, removeFirst_append _ _ (by decide)]

theorem C4_uri_roundtrip_witness :
    containsSub (":///" : String).data ("abc123" : String).data = false ∧
      parseUri (constructUri "abc123") = "abc123" :=
  ⟨by decide, C4_uri_roundtrip "abc123" (by decide)⟩

/-! ## C3: read-resource id handling -/

/-- C3 counterexample: the read handler does NOT parse the URI
"directly to a FileId with no name resolution" — it feeds the stripped
id through `resolveFileId`, which performs an exact-name lookup call
whenever the id does not match the opaque-ID shape.  On the request
uri `gdrive:///abc` (empty drive) one `listFiles` lookup call is
performed, refuting "no lookup call is ever made". -/
theorem C3_counterexample :
    parseUri "gdrive:///abc" = "abc" ∧
      (readResource [] "gdrive:///abc").2 =
        [RemoteCall.listFiles (nameQuery "abc") 5] := by
  constructor
  · rfl
  · rfl

/-- C3 amended: for every read-resource request the stripped URI is
passed through the identifier resolver; when the parsed id matches the
opaque-ID shape (as listed URIs carrying true provider IDs do) the
resolver returns it unchanged and no lookup call is made; otherwise a
name lookup is performed. -/
theorem C3_read_resolves_parsed_id (drive : List DriveFile) (uri : String)
    (h : isOpaqueId (parseUri uri) = true) :
    (resolveFileId drive (parseUri uri)).1 = Except.ok (parseUri uri) ∧
      ∀ q n, RemoteCall.listFiles q n ∉ (readResource drive uri).2 := by
  have hr : resolveFileId drive (parseUri uri) = (Except.ok (parseUri uri), []) := by
    simp [resolveFileId, h]
  constructor
  · rw [hr]
  · intro q n
    unfold readResource
    rw [hr]
    split
    · simp
    · split
      · simp
      · split <;> simp

theorem C3_read_resolves_parsed_id_witness :
    RemoteCall.listFiles (nameQuery "aaaaaaaaaaaaaaaaaaaa") 5 ∉
      (readResource [] "gdrive:///aaaaaaaaaaaaaaaaaaaa").2 :=
  (C3_read_resolves_parsed_id [] "gdrive:///aaaaaaaaaaaaaaaaaaaa" (by decide)).2
    (nameQuery "aaaaaaaaaaaaaaaaaaaa") 5

/-! ## C5: delete-from-content on an absent target makes no write -/

/-- C5: for every `delete_from_file_content` invocation where the
file's current content does not contain the target text as a literal
substring, the tool fails `textNotFound`, performs no write call, and
the remote drive state is unchanged by the calls it performed. -/
theorem C5_delete_absent_no_write (drive : List DriveFile)
    (filename targetText fileId content : String)
    (hres : (resolveFileId drive filename).1 = Except.ok fileId)
    (hget : getFileContent drive fileId = some content)
    (hnc : strContains content targetText = false) :
    (deleteFromFileContentTool drive
        [("filename", filename), ("targetText", targetText)]).1 =
      Except.error (ToolError.textNotFound targetText) ∧
    (∀ c ∈ (deleteFromFileContentTool drive
        [("filename", filename), ("targetText", targetText)]).2,
      isWriteCall c = false) ∧
    applyCalls (deleteFromFileContentTool drive
        [("filename", filename), ("targetText", targetText)]).2 drive = drive := by
  have ha1 : jsStr (argLookup [("filename", filename), ("targetText", targetText)]
      "filename") = filename := rfl
  have ha2 : jsStr (argLookup [("filename", filename), ("targetText", targetText)]
      "targetText") = targetText := rfl
  have htool : deleteFromFileContentTool drive
      [("filename", filename), ("targetText", targetText)] =
      (Except.error (ToolError.textNotFound targetText),
        (resolveFileId drive filename).2 ++ [RemoteCall.getMedia fileId]) := by
    unfold deleteFromFileContentTool
    rw [ha1, ha2, hres]
    simp [hget, hnc]
  rw [htool]
  rcases resolveFileId_snd drive filename with h2 | h2 <;> rw [h2]
  · refine ⟨rfl, ?_, rfl⟩
    intro c hc
    simp at hc
    subst hc
    rfl
  · refine ⟨rfl, ?_, rfl⟩
    intro c hc
    simp at hc
    rcases hc with hc | hc <;> subst hc <;> rfl

theorem C5_delete_absent_no_write_witness :
    applyCalls (deleteFromFileContentTool exDriveC5
        [("filename", "t.txt"), ("targetText", "xyz")]).2 exDriveC5 = exDriveC5 :=
  (C5_delete_absent_no_write exDriveC5 "t.txt" "xyz" "f5" "hello"
    (by rfl) (by rfl) (by rfl)).2.2

/-! ## C7: append rewrites the body as current + newline + appendText -/

theorem driveFind_update (drive : List DriveFile) (fileId body m : String)
    (f0 : DriveFile) (h : driveFind drive fileId = some f0) :
    driveFind (applyCall drive (RemoteCall.update fileId m body)) fileId =
      some { f0 with content := body } := by
  induction drive with
  | nil => simp [driveFind] at h
  | cons f fs ih =>
    show List.find? (fun x => x.id == fileId)
        (List.map (fun x => if x.id == fileId then { x with content := body } else x)
          (f :: fs)) =
      some { f0 with content := body }
    rw [List.map_cons]
    cases hf : f.id == fileId with
    | true =>
      rw [if_pos rfl, List.find?_cons_of_pos (p := fun x : DriveFile => x.id == fileId) _
        (show (fun x : DriveFile => x.id == fileId) { f with content := body } = true from hf)]
      unfold driveFind at h
      rw [List.find?_cons_of_pos (p := fun x : DriveFile => x.id == fileId) _ hf] at h
      injection h with h0
      rw [← h0]
    | false =>
      rw [if_neg (by simp),
        List.find?_cons_of_neg (p := fun x : DriveFile => x.id == fileId) _ (by simp [hf])]
      unfold driveFind at h
      rw [List.find?_cons_of_neg (p := fun x : DriveFile => x.id == fileId) _ (by simp [hf])] at h
      exact ih h

theorem getFileContent_update (drive : List DriveFile) (fileId body m oldContent : String)
    (h : getFileContent drive fileId = some oldContent) :
    getFileContent (applyCall drive (RemoteCall.update fileId m body)) fileId =
      some body := by
  unfold getFileContent at h ⊢
  obtain ⟨f0, hf0, -⟩ := Option.map_eq_some'.mp h
  rw [driveFind_update drive fileId body m f0 hf0]
  rfl

theorem applyCalls_append (l1 l2 : List RemoteCall) (drive : List DriveFile) :
    applyCalls (l1 ++ l2) drive = applyCalls l2 (applyCalls l1 drive) := by
  simp [applyCalls]

/-- C7: for every `append_file_content` invocation on a file whose
current content is `content`, the body written back by the single
update call is `content ++ "\n" ++ appendText`, and after the trace is
applied the remote file holds exactly that content. -/
theorem C7_append_newline (drive : List DriveFile)
    (filename appendText fileId content : String)
    (hres : (resolveFileId drive filename).1 = Except.ok fileId)
    (hget : getFileContent drive fileId = some content) :
    (appendFileContentTool drive
        [("filename", filename), ("appendText", appendText)]).1 =
      Except.ok ("파일에 텍스트 추가 완료: " ++ fileId) ∧
    (appendFileContentTool drive
        [("filename", filename), ("appendText", appendText)]).2 =
      (resolveFileId drive filename).2 ++
        [RemoteCall.getMedia fileId,
         RemoteCall.update fileId "text/plain" (content ++ "\n" ++ appendText)] ∧
    getFileContent
        (applyCalls (appendFileContentTool drive
          [("filename", filename), ("appendText", appendText)]).2 drive) fileId =
      some (content ++ "\n" ++ appendText) := by
  have ha1 : jsStr (argLookup [("filename", filename), ("appendText", appendText)]
      "filename") = filename := rfl
  have ha2 : jsStr (argLookup [("filename", filename), ("appendText", appendText)]
      "appendText") = appendText := rfl
  have htool : appendFileContentTool drive
      [("filename", filename), ("appendText", appendText)] =
      (Except.ok ("파일에 텍스트 추가 완료: " ++ fileId),
        (resolveFileId drive filename).2 ++
          [RemoteCall.getMedia fileId,
           RemoteCall.update fileId "text/plain" (content ++ "\n" ++ appendText)]) := by
    unfold appendFileContentTool
    rw [ha1, ha2, hres]
    simp [hget]
  rw [htool]
  refine ⟨rfl, rfl, ?_⟩
  rcases resolveFileId_snd drive filename with h2 | h2 <;> rw [h2] <;>
    exact getFileContent_update drive fileId (content ++ "\n" ++ appendText)
      "text/plain" content hget

theorem C7_append_newline_witness :
    getFileContent
        (applyCalls (appendFileContentTool exDriveC7
          [("filename", "a.txt"), ("appendText", "B")]).2 exDriveC7) "f7" =
      some "A\nB" := by
  have h := C7_append_newline exDriveC7 "a.txt" "B" "f7" "A" (by rfl) (by rfl)
  have h3 := h.2.2
  rw [show ("A" ++ "\n" ++ "B" : String) = "A\nB" from rfl] at h3
  exact h3

/-! ## C8: query escaping in search vs. none in the resolver -/

/-- The combined effect of the search tool's two escape passes on one
character: a backslash becomes two backslashes, a single quote becomes
backslash-quote, everything else is unchanged. -/
def escChar (c : Char) : List Char :=
  if c == backslashChar then [backslashChar, backslashChar]
  else if c == squoteChar then [backslashChar, squoteChar]
  else [c]

theorem expandChars_append (f : Char → List Char) (l1 l2 : List Char) :
    expandChars f (l1 ++ l2) = expandChars f l1 ++ expandChars f l2 := by
  induction l1 with
  | nil => rfl
  | cons c cs ih => simp [expandChars, ih]

theorem escape_passes_combine (l : List Char) :
    expandChars (fun x => if x == squoteChar then [backslashChar, squoteChar] else [x])
      (expandChars
        (fun x => if x == backslashChar then [backslashChar, backslashChar] else [x]) l) =
    expandChars escChar l := by
  induction l with
  | nil => rfl
  | cons c cs ih =>
    rw [show expandChars
        (fun x => if x == backslashChar then [backslashChar, backslashChar] else [x])
        (c :: cs) =
      (if c == backslashChar then [backslashChar, backslashChar] else [c]) ++
        expandChars
          (fun x => if x == backslashChar then [backslashChar, backslashChar] else [x])
          cs from rfl]
    rw [expandChars_append]
    rw [show expandChars escChar (c :: cs) = escChar c ++ expandChars escChar cs from rfl]
    rw [ih]
    congr 1
    by_cases hb : c == backslashChar
    · rw [if_pos hb, show escChar c = [backslashChar, backslashChar] from by
        unfold escChar; rw [if_pos hb]]
      rfl
    · rw [if_neg hb]
      by_cases hq : c == squoteChar
      · rw [show escChar c = [backslashChar, squoteChar] from by
          unfold escChar
          rw [if_neg hb, if_pos hq]]
        show (if c == squoteChar then [backslashChar, squoteChar] else [c]) ++ [] = _
        rw [if_pos hq]
        rfl
      · rw [show escChar c = [c] from by
          unfold escChar
          rw [if_neg hb, if_neg hq]]
        show (if c == squoteChar then [backslashChar, squoteChar] else [c]) ++ [] = _
        rw [if_neg hq]
        rfl

/-- C8: the search tool escapes every backslash and every single quote
of the user query (character-wise, per `escChar`) before interpolating
it into the `fullText contains` query issued with page size 10, while
the identifier resolver's exact-name lookup interpolates the supplied
name into its query verbatim, with no escaping at all. -/
theorem C8_search_escapes_resolver_does_not (drive : List DriveFile) (q nm : String)
    (h : isOpaqueId nm = false) :
    (searchTool [("query", q)]).2 =
      [RemoteCall.listFiles ("fullText contains \x27" ++ escapedQuery q ++ "\x27") 10] ∧
    escapedQuery q = String.mk (expandChars escChar q.data) ∧
    (resolveFileId drive nm).2 =
      [RemoteCall.listFiles ("name = \x27" ++ nm ++ "\x27") 5] := by
  refine ⟨rfl, ?_, resolveFileId_snd_not_id drive nm h⟩
  unfold escapedQuery replaceCharAll
  rw [show (String.mk (expandChars
      (fun x => if x == backslashChar then [backslashChar, backslashChar] else [x])
      q.data)).data =
    expandChars
      (fun x => if x == backslashChar then [backslashChar, backslashChar] else [x])
      q.data from rfl]
  rw [escape_passes_combine]

theorem C8_search_escapes_witness :
    isOpaqueId "t.txt" = false ∧
      (resolveFileId [] "t.txt").2 =
        [RemoteCall.listFiles ("name = \x27" ++ "t.txt" ++ "\x27") 5] :=
  ⟨by decide,
    (C8_search_escapes_resolver_does_not [] "a" "t.txt" (by decide)).2.2⟩

/-! ## C9: argument-presence validation -/

/-- C9 counterexample: the dispatcher performs no presence validation.
Calling `update_file_content` with an empty argument bag (the required
key `fileId` absent) coerces the undefined value to the string
`"undefined"` and performs a remote `name = 'undefined'` lookup call —
the invocation reaches the remote API instead of failing as a caller
error with zero remote calls. -/
theorem C9_counterexample :
    argLookup ([] : Args) "fileId" = none ∧
      (callTool (fun _ => none) [] "update_file_content" []).2 =
        [RemoteCall.listFiles (nameQuery "undefined") 5] := by
  constructor
  · rfl
  · rfl

/-- C9 amended: no tool validates argument presence.  For the five
tools that resolve an id or filename, an invocation missing that key
coerces it to the string `"undefined"` and its first remote call is a
`name = 'undefined'` lookup, so the remote API is reached.  For
`upload_file_with_content`, a missing `content` happens to raise a JS
`TypeError` in `Buffer.from` before any remote call, but an invocation
missing only `name` is not caught either: the mime lookup falls back
to `application/octet-stream` and the remote create call is still
issued, with no name.  For `search`, a missing `query` happens to
raise a `TypeError` before any remote call.  The type errors are
incidental, not validation. -/
theorem C9_no_presence_validation (mimeLookup : String → Option String)
    (drive : List DriveFile) :
    ((callTool mimeLookup drive "update_file_content" []).2).head? =
      some (RemoteCall.listFiles (nameQuery "undefined") 5) ∧
    ((callTool mimeLookup drive "delete_file" []).2).head? =
      some (RemoteCall.listFiles (nameQuery "undefined") 5) ∧
    ((callTool mimeLookup drive "read_file_content" []).2).head? =
      some (RemoteCall.listFiles (nameQuery "undefined") 5) ∧
    ((callTool mimeLookup drive "append_file_content" []).2).head? =
      some (RemoteCall.listFiles (nameQuery "undefined") 5) ∧
    ((callTool mimeLookup drive "delete_from_file_content" []).2).head? =
      some (RemoteCall.listFiles (nameQuery "undefined") 5) ∧
    callTool mimeLookup drive "search" [] = (Except.error ToolError.typeError, []) ∧
    callTool mimeLookup drive "upload_file_with_content" [] =
      (Except.error ToolError.typeError, []) ∧
    (∀ c, callTool mimeLookup drive "upload_file_with_content" [("content", c)] =
      (Except.ok "파일 업로드 완료",
        [RemoteCall.createFile none "application/octet-stream" c])) := by
  have hu : isOpaqueId "undefined" = false := by decide
  have h2 := resolveFileId_snd_not_id drive "undefined" hu
  refine ⟨?_, ?_, ?_, ?_, ?_, rfl, rfl, fun c => rfl⟩
  · show ((updateFileContentTool drive []).2).head? = _
    unfold updateFileContentTool
    rw [show jsStr (argLookup ([] : Args) "fileId") = "undefined" from rfl]
    split
    · rw [h2]
      rfl
    · rw [show argLookup ([] : Args) "newContent" = none from rfl, h2]
      rfl
  · show ((deleteFileTool drive []).2).head? = _
    unfold deleteFileTool
    rw [show jsStr (argLookup ([] : Args) "fileId") = "undefined" from rfl]
    split
    · rw [h2]
      rfl
    · rw [h2]
      rfl
  · show ((readFileContentTool drive []).2).head? = _
    unfold readFileContentTool
    rw [show jsStr (argLookup ([] : Args) "filename") = "undefined" from rfl]
    split
    · rw [h2]
      rfl
    · split <;> rw [h2] <;> rfl
  · show ((appendFileContentTool drive []).2).head? = _
    unfold appendFileContentTool
    rw [show jsStr (argLookup ([] : Args) "filename") = "undefined" from rfl]
    split
    · rw [h2]
      rfl
    · split <;> rw [h2] <;> rfl
  · show ((deleteFromFileContentTool drive []).2).head? = _
    unfold deleteFromFileContentTool
    rw [show jsStr (argLookup ([] : Args) "filename") = "undefined" from rfl]
    split
    · rw [h2]
      rfl
    · split
      · rw [h2]
        rfl
      · split <;> rw [h2] <;> rfl

/-! ## C10: every content-mutating write uses media mime text/plain -/

theorem update_not_in_resolve (drive : List DriveFile) (s fid m b : String) :
    RemoteCall.update fid m b ∉ (resolveFileId drive s).2 := by
  rcases resolveFileId_snd drive s with h | h <;> rw [h] <;> simp

/-- C10: every update call issued by `update_file_content`,
`append_file_content` and `delete_from_file_content` carries the media
mime type `text/plain`, regardless of the file's original mime type
and of the arguments. -/
theorem C10_writes_are_text_plain (drive : List DriveFile) (args : Args)
    (fid m b : String) :
    (RemoteCall.update fid m b ∈ (updateFileContentTool drive args).2 →
      m = "text/plain") ∧
    (RemoteCall.update fid m b ∈ (appendFileContentTool drive args).2 →
      m = "text/plain") ∧
    (RemoteCall.update fid m b ∈ (deleteFromFileContentTool drive args).2 →
      m = "text/plain") := by
  refine ⟨?_, ?_, ?_⟩
  · intro hmem
    unfold updateFileContentTool at hmem
    split at hmem
    · exact absurd hmem (update_not_in_resolve _ _ _ _ _)
    · split at hmem
      · exact absurd hmem (update_not_in_resolve _ _ _ _ _)
      · rw [List.mem_append] at hmem
        rcases hmem with hmem | hmem
        · exact absurd hmem (update_not_in_resolve _ _ _ _ _)
        · simp at hmem
          exact hmem.2.1
  · intro hmem
    unfold appendFileContentTool at hmem
    split at hmem
    · exact absurd hmem (update_not_in_resolve _ _ _ _ _)
    · split at hmem
      · rw [List.mem_append] at hmem
        rcases hmem with hmem | hmem
        · exact absurd hmem (update_not_in_resolve _ _ _ _ _)
        · simp at hmem
      · rw [List.mem_append] at hmem
        rcases hmem with hmem | hmem
        · exact absurd hmem (update_not_in_resolve _ _ _ _ _)
        · simp at hmem
          exact hmem.2.1
  · intro hmem
    unfold deleteFromFileContentTool at hmem
    split at hmem
    · exact absurd hmem (update_not_in_resolve _ _ _ _ _)
    · split at hmem
      · rw [List.mem_append] at hmem
        rcases hmem with hmem | hmem
        · exact absurd hmem (update_not_in_resolve _ _ _ _ _)
        · simp at hmem
      · split at hmem
        · rw [List.mem_append] at hmem
          rcases hmem with hmem | hmem
          · exact absurd hmem (update_not_in_resolve _ _ _ _ _)
          · simp at hmem
            exact hmem.2.1
        · rw [List.mem_append] at hmem
          rcases hmem with hmem | hmem
          · exact absurd hmem (update_not_in_resolve _ _ _ _ _)
          · simp at hmem

theorem C10_writes_are_text_plain_witness :
    RemoteCall.update "idaaaaaaaaaaaaaaaaaaaa" "text/plain" "new" ∈
      (updateFileContentTool []
        [("fileId", "idaaaaaaaaaaaaaaaaaaaa"), ("newContent", "new")]).2 ∧
    "text/plain" = "text/plain" :=
  ⟨by decide,
    (C10_writes_are_text_plain []
      [("fileId", "idaaaaaaaaaaaaaaaaaaaa"), ("newContent", "new")]
      "idaaaaaaaaaaaaaaaaaaaa" "text/plain" "new").1 (by decide)⟩

/-! ## C6: delete-from-content removal accounting -/

theorem removeMatches_nil (p : Char) (ps : List Char) (fuel : Nat) :
    removeMatches p ps fuel [] = [] := by
  cases fuel <;> rfl

theorem countMatches_nil (p : Char) (ps : List Char) (fuel : Nat) :
    countMatches p ps fuel [] = 0 := by
  cases fuel <;> rfl

theorem removeMatches_cons_pos (p : Char) (ps : List Char) (n : Nat) (c : Char)
    (cs : List Char) (hb : (c == p && ps.isPrefixOf cs) = true) :
    removeMatches p ps (n + 1) (c :: cs) = removeMatches p ps n (cs.drop ps.length) := by
  conv_lhs => unfold removeMatches
  rw [hb, if_pos rfl]

theorem removeMatches_cons_neg (p : Char) (ps : List Char) (n : Nat) (c : Char)
    (cs : List Char) (hb : (c == p && ps.isPrefixOf cs) = false) :
    removeMatches p ps (n + 1) (c :: cs) = c :: removeMatches p ps n cs := by
  conv_lhs => unfold removeMatches
  rw [hb]
  rfl

theorem countMatches_cons_pos (p : Char) (ps : List Char) (n : Nat) (c : Char)
    (cs : List Char) (hb : (c == p && ps.isPrefixOf cs) = true) :
    countMatches p ps (n + 1) (c :: cs) = countMatches p ps n (cs.drop ps.length) + 1 := by
  conv_lhs => unfold countMatches
  rw [hb, if_pos rfl]

theorem countMatches_cons_neg (p : Char) (ps : List Char) (n : Nat) (c : Char)
    (cs : List Char) (hb : (c == p && ps.isPrefixOf cs) = false) :
    countMatches p ps (n + 1) (c :: cs) = countMatches p ps n cs := by
  conv_lhs => unfold countMatches
  rw [hb]
  rfl

theorem removeMatches_length_add (p : Char) (ps : List Char) :
    ∀ fuel l, l.length ≤ fuel →
      (removeMatches p ps fuel l).length +
        countMatches p ps fuel l * (ps.length + 1) = l.length := by
  intro fuel
  induction fuel with
  | zero =>
    intro l hl
    have hnil : l = [] := List.length_eq_zero.mp (Nat.le_zero.mp hl)
    subst hnil
    rw [removeMatches_nil, countMatches_nil]
    simp
  | succ n ih =>
    intro l hl
    cases l with
    | nil =>
      rw [removeMatches_nil, countMatches_nil]
      simp
    | cons c cs =>
      cases hb : c == p && ps.isPrefixOf cs with
      | true =>
        have hps : ps.length ≤ cs.length :=
          isPrefixOf_length_le ps cs (Bool.and_eq_true_iff.mp hb).2
        have hdl : (cs.drop ps.length).length ≤ n := by
          rw [List.length_drop]
          simp only [List.length_cons] at hl
          omega
        have hrec := ih (cs.drop ps.length) hdl
        rw [removeMatches_cons_pos p ps n c cs hb, countMatches_cons_pos p ps n c cs hb,
          Nat.succ_mul]
        rw [List.length_drop] at hrec
        simp only [List.length_cons]
        omega
      | false =>
        have hrec := ih cs (by simp only [List.length_cons] at hl; omega)
        rw [removeMatches_cons_neg p ps n c cs hb, countMatches_cons_neg p ps n c cs hb]
        simp only [List.length_cons]
        omega

theorem countMatches_zero_of_not_contains (p : Char) (ps : List Char) :
    ∀ fuel l, containsSub (p :: ps) l = false → countMatches p ps fuel l = 0 := by
  intro fuel
  induction fuel with
  | zero =>
    intro l h
    exact countMatches_nil p ps 0 ▸ (by cases l <;> rfl)
  | succ n ih =>
    intro l h
    cases l with
    | nil => exact countMatches_nil p ps (n + 1)
    | cons c cs =>
      rw [show containsSub (p :: ps) (c :: cs) =
          ((p :: ps).isPrefixOf (c :: cs) || containsSub (p :: ps) cs) from rfl] at h
      rw [Bool.or_eq_false_iff] at h
      have h1 := h.1
      rw [show (p :: ps).isPrefixOf (c :: cs) = (p == c && ps.isPrefixOf cs) from rfl] at h1
      have hb : (c == p && ps.isPrefixOf cs) = false := by
        cases hcp : c == p with
        | false => rfl
        | true =>
          have hpc : (p == c) = true := by
            rw [beq_iff_eq] at hcp
            rw [beq_iff_eq, hcp]
          rw [hpc, Bool.true_and] at h1
          rw [Bool.true_and]
          exact h1
      rw [countMatches_cons_neg p ps n c cs hb]
      exact ih cs h.2

/-- C6 counterexample: the global regex removal is a single
left-to-right pass, so removing `"ab"` (no metacharacters, one
leftmost match) from `"aabb"` rewrites the file to `"ab"` — the
rewritten content still contains an occurrence of the target,
refuting "the rewritten content contains zero occurrences". -/
theorem C6_counterexample :
    noMeta "ab" = true ∧
    1 ≤ countOccurrences "aabb" "ab" ∧
    (deleteFromFileContentTool exDriveC6
        [("filename", "c.txt"), ("targetText", "ab")]).2 =
      [RemoteCall.listFiles (nameQuery "c.txt") 5, RemoteCall.getMedia "f6",
       RemoteCall.update "f6" "text/plain" "ab"] ∧
    strContains "ab" "ab" = true ∧
    countOccurrences "ab" "ab" ≠ 0 := by
  refine ⟨by decide, by decide, by decide, by decide, by decide⟩

/-- C6 amended: for every `delete_from_file_content` invocation where
the target text contains no pattern metacharacters and occurs N ≥ 1
times (counting leftmost non-overlapping matches) in the file's
current content, the tool rewrites the body in one update call with
the single-pass removal of those matches, and the rewritten content's
length equals the original length minus N times the target's length.
(Occurrences newly formed by the juxtaposition of text surrounding
removed matches may remain, so the "zero occurrences" part of the
original claim does not hold.) -/
theorem C6_delete_removes_matches (drive : List DriveFile)
    (filename targetText fileId content : String)
    (hres : (resolveFileId drive filename).1 = Except.ok fileId)
    (hget : getFileContent drive fileId = some content)
    (hmeta : noMeta targetText = true)
    (hN : 1 ≤ countOccurrences content targetText) :
    (deleteFromFileContentTool drive
        [("filename", filename), ("targetText", targetText)]).1 =
      Except.ok ("파일에서 텍스트 삭제 완료: " ++ fileId) ∧
    (deleteFromFileContentTool drive
        [("filename", filename), ("targetText", targetText)]).2 =
      (resolveFileId drive filename).2 ++
        [RemoteCall.getMedia fileId,
         RemoteCall.update fileId "text/plain"
           (removeAllOccurrences content targetText)] ∧
    (removeAllOccurrences content targetText).length +
        countOccurrences content targetText * targetText.length = content.length ∧
    (removeAllOccurrences content targetText).length =
      content.length - countOccurrences content targetText * targetText.length := by
  have ha1 : jsStr (argLookup [("filename", filename), ("targetText", targetText)]
      "filename") = filename := rfl
  have ha2 : jsStr (argLookup [("filename", filename), ("targetText", targetText)]
      "targetText") = targetText := rfl
  obtain ⟨p, ps, ht⟩ : ∃ p ps, targetText.data = p :: ps := by
    cases htd : targetText.data with
    | nil =>
      rw [show countOccurrences content targetText = 0 from by
        unfold countOccurrences; rw [htd]] at hN
      omega
    | cons p ps => exact ⟨p, ps, rfl⟩
  have hcont : strContains content targetText = true := by
    cases hc : strContains content targetText with
    | true => rfl
    | false =>
      unfold strContains at hc
      rw [ht] at hc
      rw [show countOccurrences content targetText =
          countMatches p ps content.data.length content.data from by
        unfold countOccurrences; rw [ht]] at hN
      rw [countMatches_zero_of_not_contains p ps content.data.length content.data hc] at hN
      omega
  have hlen : (removeAllOccurrences content targetText).length +
      countOccurrences content targetText * targetText.length = content.length := by
    rw [show removeAllOccurrences content targetText =
        String.mk (removeMatches p ps content.data.length content.data) from by
      unfold removeAllOccurrences; rw [ht]]
    rw [show countOccurrences content targetText =
        countMatches p ps content.data.length content.data from by
      unfold countOccurrences; rw [ht]]
    rw [show targetText.length = ps.length + 1 from by
      rw [show targetText.length = targetText.data.length from rfl, ht]
      rfl]
    rw [show (String.mk (removeMatches p ps content.data.length content.data)).length =
        (removeMatches p ps content.data.length content.data).length from rfl]
    rw [show content.length = content.data.length from rfl]
    exact removeMatches_length_add p ps content.data.length content.data (Nat.le_refl _)
  have htool : deleteFromFileContentTool drive
      [("filename", filename), ("targetText", targetText)] =
      (Except.ok ("파일에서 텍스트 삭제 완료: " ++ fileId),
        (resolveFileId drive filename).2 ++
          [RemoteCall.getMedia fileId,
           RemoteCall.update fileId "text/plain"
             (removeAllOccurrences content targetText)]) := by
    unfold deleteFromFileContentTool
    rw [ha1, ha2, hres]
    simp [hget, hcont]
  rw [htool]
  exact ⟨rfl, rfl, hlen, by omega⟩

theorem C6_delete_removes_matches_witness :
    (deleteFromFileContentTool exDriveC5
        [("filename", "t.txt"), ("targetText", "ll")]).2 =
      (resolveFileId exDriveC5 "t.txt").2 ++
        [RemoteCall.getMedia "f5",
         RemoteCall.update "f5" "text/plain"
           (removeAllOccurrences "hello" "ll")] :=
  (C6_delete_removes_matches exDriveC5 "t.txt" "ll" "f5" "hello"
    (by rfl) (by rfl) (by decide) (by decide)).2.1
